import Mathlib

/-!
# Verification of the recipe-assistant shopping-list logic

Shallow embedding of the shopping-list flow of the recipe-assistant web
application: the check/uncheck handler and item filtering of the shopping-list
page, the shopping-list creation requests issued by the search page and the
weekly meal planner, the mock client-side recipe search, and the list
aggregation algorithm.

The frontend pages are embedded directly from the TypeScript source.  The
aggregation algorithm (merge, pantry subtraction, categorization, sorting) is
not implemented anywhere in the repository's files — only the planning
documents describe it — so it is modelled from the specification's own words
(section 4.1), and every definition doing so says so in its doc comment.
-/

/-! ## Data model: shopping list items (from the `lib/api` types as used by
`frontend/app/shopping-list/page.tsx`) -/

/-- One entry of a shopping list, with the fields the shopping-list page
reads: `item.ingredient`, `item.quantity`, `item.unit`, `item.notes`,
`item.category`, `item.recipe_id`, `item.checked`. -/
structure ShoppingItem where
  ingredient : String
  quantity : Option ℚ
  unit : Option String
  notes : Option String
  category : Option String
  recipe_id : Option Nat
  checked : Bool
deriving DecidableEq, Repr

/-- A shopping list as the shopping-list page holds it: `selectedList.items`
and `selectedList.recipe_ids`. -/
structure ShoppingList where
  id : Nat
  name : String
  items : List ShoppingItem
  recipe_ids : List Nat
deriving DecidableEq, Repr

/-! ## The check/uncheck handler (`handleCheckItem` in
`frontend/app/shopping-list/page.tsx`)

`handleCheckItem(itemIndex)` copies the current items array
(`const updatedItems = [...selectedList.items]`), replaces the entry at
`itemIndex` by a spread copy whose `checked` flag is negated, and submits the
WHOLE resulting array as the update body:
`shoppingListApi.updateShoppingList(selectedList.id, { items: updatedItems })`.
`checkItemUpdate items i` is that submitted items array. -/

def checkItemUpdate : List ShoppingItem → Nat → List ShoppingItem
  | [], _ => []
  | it :: rest, 0 => { it with checked := !it.checked } :: rest
  | it :: rest, n + 1 => it :: checkItemUpdate rest n

theorem checkItemUpdate_length (items : List ShoppingItem) (i : Nat) :
    (checkItemUpdate items i).length = items.length := by
  induction items generalizing i with
  | nil => rfl
  | cons it rest ih =>
    cases i with
    | zero => rfl
    | succ n => simpa [checkItemUpdate] using ih n

theorem checkItemUpdate_get_ne (items : List ShoppingItem) (i j : Nat)
    (hij : j ≠ i) : (checkItemUpdate items i).get? j = items.get? j := by
  induction items generalizing i j with
  | nil => rfl
  | cons it rest ih =>
    cases i with
    | zero =>
      cases j with
      | zero => exact absurd rfl hij
      | succ m => rfl
    | succ n =>
      cases j with
      | zero => rfl
      | succ m =>
        simpa [checkItemUpdate] using ih n m (fun h => hij (by simpa using h))

theorem checkItemUpdate_get_eq (items : List ShoppingItem) (i : Nat) :
    (checkItemUpdate items i).get? i =
      (items.get? i).map (fun it => { it with checked := !it.checked }) := by
  induction items generalizing i with
  | nil => rfl
  | cons it rest ih =>
    cases i with
    | zero => rfl
    | succ n => simpa [checkItemUpdate] using ih n

theorem checkItemUpdate_involution (items : List ShoppingItem) (i : Nat) :
    checkItemUpdate (checkItemUpdate items i) i = items := by
  induction items generalizing i with
  | nil => rfl
  | cons it rest ih =>
    cases i with
    | zero =>
      show { it with checked := !(!it.checked) } :: rest = it :: rest
      rw [Bool.not_not]
    | succ n =>
      show it :: checkItemUpdate (checkItemUpdate rest n) n = it :: rest
      rw [ih n]

/-! ## The filtered item view and the identity lookup
(`getFilteredItems` and the `actualIndex` computation in
`frontend/app/shopping-list/page.tsx`)

The page renders `getFilteredItems()` — all items when the `'all'` tab is
selected, otherwise the items whose `recipe_id` equals the selected recipe
tab — and for each rendered item recovers its index in the unfiltered array
with `selectedList.items.findIndex(i => i.ingredient === item.ingredient &&
i.recipe_id === item.recipe_id)`; the check button calls
`handleCheckItem(actualIndex)`.  The `'all'` tab is `none` here, a recipe tab
is `some rid`. -/

def getFilteredItems (list : ShoppingList) (tab : Option Nat) : List ShoppingItem :=
  match tab with
  | none => list.items
  | some rid => list.items.filter (fun it => decide (it.recipe_id = some rid))

def itemIdentityMatch (item : ShoppingItem) (i : ShoppingItem) : Bool :=
  decide (i.ingredient = item.ingredient ∧ i.recipe_id = item.recipe_id)

def actualIndex (items : List ShoppingItem) (item : ShoppingItem) : Nat :=
  items.findIdx (itemIdentityMatch item)

theorem findIdx_found {α : Type} (p : α → Bool) :
    ∀ (l : List α), (∃ x ∈ l, p x = true) →
      l.findIdx p < l.length ∧
        ∃ y, l.get? (l.findIdx p) = some y ∧ p y = true := by
  intro l
  induction l with
  | nil => rintro ⟨x, hx, -⟩; exact absurd hx (List.not_mem_nil x)
  | cons a l ih =>
    rintro ⟨x, hx, hpx⟩
    by_cases hpa : p a = true
    · refine ⟨?_, a, ?_, hpa⟩ <;> simp [List.findIdx_cons, hpa]
    · have hxl : x ∈ l := by
        rcases List.mem_cons.mp hx with rfl | h
        · exact absurd hpx hpa
        · exact h
      obtain ⟨hlt, y, hy, hpy⟩ := ih ⟨x, hxl, hpx⟩
      refine ⟨?_, y, ?_, hpy⟩
      · simpa [List.findIdx_cons, hpa] using Nat.succ_lt_succ hlt
      · simpa [List.findIdx_cons, hpa] using hy

theorem mem_getFilteredItems (list : ShoppingList) (tab : Option Nat)
    (item : ShoppingItem) (h : item ∈ getFilteredItems list tab) :
    item ∈ list.items := by
  cases tab with
  | none => exact h
  | some rid => exact (List.mem_filter.mp h).1

/-! ## Concrete inputs used by counterexamples and witnesses -/

def demoItemFlour : ShoppingItem :=
  { ingredient := "flour", quantity := some 2, unit := some "cup",
    notes := none, category := some "baking", recipe_id := some 1,
    checked := false }

def demoItemMilk : ShoppingItem :=
  { ingredient := "milk", quantity := some 1, unit := some "l",
    notes := none, category := some "dairy", recipe_id := some 2,
    checked := false }

def demoList : ShoppingList :=
  { id := 1, name := "Demo list", items := [demoItemFlour, demoItemMilk],
    recipe_ids := [1, 2] }

/-! ## Claim theorems about the check/uncheck handler -/

/-- C1, as stated, is false on the code: `handleCheckItem` does not send a
single-item update to the persistence layer.  On a concrete two-item list,
toggling item 0 submits an items array of length 2 which still contains the
untouched second item, so the write is a full-list replace, not an atomic
per-item write. -/
theorem check_write_not_single_item :
    (checkItemUpdate demoList.items 0).length ≠ 1 ∧
      demoItemMilk ∈ checkItemUpdate demoList.items 0 := by
  constructor
  · decide
  · simp [demoList, checkItemUpdate]

/-- C1 (amended): the check handler's update is a full-list replace built from
the client's snapshot: the submitted items array has the same length as the
snapshot and carries the snapshot's copy of every index other than the toggled
one — so a concurrent edit to another item of the same list is overwritten by
the toggle rather than preserved. -/
theorem check_write_full_list_replace (items : List ShoppingItem) (i : Nat)
    (h : i < items.length) :
    (checkItemUpdate items i).length = items.length ∧
      ∀ j, j ≠ i → (checkItemUpdate items i).get? j = items.get? j :=
  ⟨checkItemUpdate_length items i, fun j hj => checkItemUpdate_get_ne items i j hj⟩

theorem check_write_full_list_replace_witness :
    0 < demoList.items.length ∧
      (checkItemUpdate demoList.items 0).length = demoList.items.length :=
  ⟨by decide, (check_write_full_list_replace demoList.items 0 (by decide)).1⟩

/-- C3: toggling the same item twice returns the items array to its original
state (the server round-trip of `updateShoppingList` stores exactly the
submitted items, so two successive `handleCheckItem` calls on index `i`
compose to the identity): in particular an unchecked item is unchecked again
after two toggles. -/
theorem check_toggle_involution (list : ShoppingList) (i : Nat)
    (h : i < list.items.length) :
    checkItemUpdate (checkItemUpdate list.items i) i = list.items :=
  checkItemUpdate_involution list.items i

theorem check_toggle_involution_witness :
    0 < demoList.items.length ∧
      checkItemUpdate (checkItemUpdate demoList.items 0) 0 = demoList.items :=
  ⟨by decide, check_toggle_involution demoList 0 (by decide)⟩

/-- C9: the items array `handleCheckItem` constructs and submits has the same
length as the current one, agrees with it at every index other than the
toggled one, and at the toggled index every field except `checked` is
unchanged while `checked` is negated. -/
theorem check_frame_effect (items : List ShoppingItem) (i : Nat)
    (h : i < items.length) :
    (checkItemUpdate items i).length = items.length ∧
      (∀ j, j ≠ i → (checkItemUpdate items i).get? j = items.get? j) ∧
      ∃ it it', items.get? i = some it ∧
        (checkItemUpdate items i).get? i = some it' ∧
        it'.ingredient = it.ingredient ∧ it'.quantity = it.quantity ∧
        it'.unit = it.unit ∧ it'.notes = it.notes ∧
        it'.category = it.category ∧ it'.recipe_id = it.recipe_id ∧
        it'.checked = !it.checked := by
  refine ⟨checkItemUpdate_length items i,
    fun j hj => checkItemUpdate_get_ne items i j hj, ?_⟩
  have hit : items.get? i = some (items.get ⟨i, h⟩) := List.get?_eq_get h
  refine ⟨items.get ⟨i, h⟩,
    { items.get ⟨i, h⟩ with checked := !(items.get ⟨i, h⟩).checked },
    hit, ?_, rfl, rfl, rfl, rfl, rfl, rfl, rfl⟩
  rw [checkItemUpdate_get_eq, hit]
  rfl

theorem check_frame_effect_witness :
    0 < demoList.items.length ∧
      (checkItemUpdate demoList.items 0).length = demoList.items.length :=
  ⟨by decide, (check_frame_effect demoList.items 0 (by decide)).1⟩

/-- C5: the check button resolves the clicked item (possibly taken from the
view filtered under one recipe tab) to an index of the unfiltered array via
its identity pair (ingredient name, contributing recipe id); that index is in
range, the item found there carries exactly that identity, and the submitted
update changes the checked flag at that single index only. -/
theorem check_targets_identity (list : ShoppingList) (tab : Option Nat)
    (item : ShoppingItem) (h : item ∈ getFilteredItems list tab) :
    actualIndex list.items item < list.items.length ∧
      (∃ target, list.items.get? (actualIndex list.items item) = some target ∧
        target.ingredient = item.ingredient ∧
        target.recipe_id = item.recipe_id ∧
        (checkItemUpdate list.items (actualIndex list.items item)).get?
            (actualIndex list.items item) =
          some { target with checked := !target.checked }) ∧
      ∀ j, j ≠ actualIndex list.items item →
        (checkItemUpdate list.items (actualIndex list.items item)).get? j =
          list.items.get? j := by
  have hmem : item ∈ list.items := mem_getFilteredItems list tab item h
  have hself : itemIdentityMatch item item = true := by
    simp [itemIdentityMatch]
  obtain ⟨hlt, y, hy, hpy⟩ :=
    findIdx_found (itemIdentityMatch item) list.items ⟨item, hmem, hself⟩
  have hid : y.ingredient = item.ingredient ∧ y.recipe_id = item.recipe_id := by
    simpa [itemIdentityMatch] using hpy
  refine ⟨hlt, ⟨y, hy, hid.1, hid.2, ?_⟩,
    fun j hj => checkItemUpdate_get_ne list.items (actualIndex list.items item) j hj⟩
  rw [show actualIndex list.items item =
        list.items.findIdx (itemIdentityMatch item) from rfl,
    checkItemUpdate_get_eq, hy]
  rfl

theorem check_targets_identity_witness :
    demoItemMilk ∈ getFilteredItems demoList (some 2) ∧
      actualIndex demoList.items demoItemMilk < demoList.items.length :=
  ⟨by decide,
    (check_targets_identity demoList (some 2) demoItemMilk (by decide)).1⟩

/-! ## Recipes and shopping-list creation requests

`Recipe` and `Ingredient` follow the `lib/api` record shape the planner and
search pages hold (`recipe.id`, `recipe.title`, ingredient lists, servings);
quantities are embedded as rationals. -/

structure Ingredient where
  name : String
  amount : ℚ
  unit : String
deriving DecidableEq, Repr

structure Recipe where
  id : Nat
  title : String
  ingredients : List Ingredient
  servings : Nat
deriving DecidableEq, Repr

/-- The body of `shoppingListApi.createShoppingList` as both the search page
and the planner build it. -/
structure CreateShoppingListRequest where
  name : String
  recipe_ids : List Nat
  exclude_pantry : Bool
  group_by_category : Bool
deriving DecidableEq, Repr

/-! ## The weekly meal planner (`frontend/app/planner/page.tsx`)

The meal-plan state is one slot per meal type (`breakfast`, `lunch`,
`dinner`) for each of the seven days Monday..Sunday, each slot holding a
recipe or nothing.  `generateShoppingList` walks `Object.values(mealPlan)` in
day order and each day's meals in slot order, pushing `recipe.id` for every
filled slot (the JS guard `if (recipe && recipe.id)` also skips a recipe
whose id is the falsy number 0), with no deduplication. -/

structure DayMeals where
  breakfast : Option Recipe
  lunch : Option Recipe
  dinner : Option Recipe
deriving DecidableEq, Repr

structure MealPlan where
  monday : DayMeals
  tuesday : DayMeals
  wednesday : DayMeals
  thursday : DayMeals
  friday : DayMeals
  saturday : DayMeals
  sunday : DayMeals
deriving DecidableEq, Repr

def MealPlan.daysList (p : MealPlan) : List DayMeals :=
  [p.monday, p.tuesday, p.wednesday, p.thursday, p.friday, p.saturday, p.sunday]

def DayMeals.slots (d : DayMeals) : List (Option Recipe) :=
  [d.breakfast, d.lunch, d.dinner]

/-- The `recipeIds` array `generateShoppingList` collects before calling the
API: slot by slot, in day order, one push per filled slot. -/
def collectRecipeIds (p : MealPlan) : List Nat :=
  (p.daysList.flatMap DayMeals.slots).filterMap (fun slot =>
    match slot with
    | some r => if r.id ≠ 0 then some r.id else none
    | none => none)

/-- The request `generateShoppingList` issues: `none` when the collected id
list is empty (the handler shows an error toast and returns before calling
`createShoppingList`), otherwise the create body with the collected ids. -/
def generateShoppingListRequest (p : MealPlan) (listName : String) :
    Option CreateShoppingListRequest :=
  let ids := collectRecipeIds p
  if ids.isEmpty then none
  else some { name := listName, recipe_ids := ids,
              exclude_pantry := true, group_by_category := true }

/-- The request the search page's `createShoppingList` issues from the
selected-recipes set (`Array.from(selectedRecipes)`, in insertion order):
`none` when the selection is empty (error toast, early return), otherwise the
create body. -/
def createShoppingListRequest (selectedRecipes : List Nat) (listName : String) :
    Option CreateShoppingListRequest :=
  if selectedRecipes.isEmpty then none
  else some { name := listName, recipe_ids := selectedRecipes,
              exclude_pantry := true, group_by_category := true }

/-- C2: a generation request with an empty recipe id set is rejected before
any API call is made (no request is issued, so no fetch happens and no
ShoppingList is created), in both the planner and the search page; a
non-empty request proceeds, carrying exactly the collected ids. -/
theorem empty_recipe_set_rejected (p : MealPlan) (sel : List Nat) (n : String) :
    (generateShoppingListRequest p n = none ↔ collectRecipeIds p = []) ∧
      (∀ r, generateShoppingListRequest p n = some r →
        r.recipe_ids = collectRecipeIds p ∧ r.recipe_ids ≠ []) ∧
      (createShoppingListRequest sel n = none ↔ sel = []) ∧
      (∀ r, createShoppingListRequest sel n = some r →
        r.recipe_ids = sel ∧ sel ≠ []) := by
  refine ⟨?_, ?_, ?_, ?_⟩
  · simp only [generateShoppingListRequest]
    split <;> simp_all [List.isEmpty_iff]
  · intro r hr
    simp only [generateShoppingListRequest] at hr
    split at hr
    · exact absurd hr (by simp)
    · cases hr
      exact ⟨rfl, by simp_all [List.isEmpty_iff]⟩
  · simp only [createShoppingListRequest]
    split <;> simp_all [List.isEmpty_iff]
  · intro r hr
    simp only [createShoppingListRequest] at hr
    split at hr
    · exact absurd hr (by simp)
    · cases hr
      exact ⟨rfl, by simp_all [List.isEmpty_iff]⟩

/-! ## A meal plan with the same recipe in two slots (for C10) -/

def demoPlannedRecipe : Recipe :=
  { id := 7, title := "Garlic Butter Pasta", ingredients := [], servings := 2 }

def emptyDay : DayMeals := { breakfast := none, lunch := none, dinner := none }

def demoMealPlan : MealPlan :=
  { monday := { emptyDay with breakfast := some demoPlannedRecipe },
    tuesday := emptyDay,
    wednesday := { emptyDay with dinner := some demoPlannedRecipe },
    thursday := emptyDay, friday := emptyDay, saturday := emptyDay,
    sunday := emptyDay }

/-- C10: a recipe planned in several slots is submitted once per slot: on a
concrete plan with the same recipe at Monday breakfast and Wednesday dinner,
the collected id list is `[7, 7]` — an ordered list with a duplicate, not a
set — and the generation request carries it verbatim. -/
theorem meal_plan_duplicate_recipe_ids :
    collectRecipeIds demoMealPlan = [7, 7] ∧
      ¬ (collectRecipeIds demoMealPlan).Nodup ∧
      generateShoppingListRequest demoMealPlan "Weekly Meal Plan" =
        some { name := "Weekly Meal Plan", recipe_ids := [7, 7],
               exclude_pantry := true, group_by_category := true } := by
  refine ⟨rfl, by decide, rfl⟩

/-! ## The mock client-side search (`SearchPage` with `MOCK_RECIPES`)

The only implemented search filters a hardcoded two-element recipe array
entirely on the client: the `q` URL parameter is lowercased once and a recipe
passes when that string occurs as a substring of the lowercased title, the
lowercased description, or a lowercased tag. -/

structure SearchRecipe where
  title : String
  description : String
  tags : List String
deriving DecidableEq, Repr

def MOCK_RECIPES : List SearchRecipe :=
  [{ title := "Spicy Chickpea Stir Fry",
     description := "Quick vegan stir fry with chickpeas and sriracha",
     tags := ["spicy", "vegan", "quick"] },
   { title := "Garlic Butter Pasta",
     description := "Simple pasta with garlic and butter sauce",
     tags := ["vegetarian", "quick"] }]

/-- JavaScript's `String.prototype.includes`: `pat` occurs contiguously in
`s` (the empty pattern occurs in every string). -/
def strIncludes (s pat : String) : Bool :=
  (List.range (s.data.length + 1)).any
    (fun i => pat.data.isPrefixOf (s.data.drop i))

def searchResults (q : String) : List SearchRecipe :=
  MOCK_RECIPES.filter (fun r =>
    strIncludes r.title.toLower q.toLower ||
    strIncludes r.description.toLower q.toLower ||
    r.tags.any (fun t => strIncludes t.toLower q.toLower))

/-- C8: the implemented search is client-side filtering of the hardcoded
recipe array: for every query, a recipe is in the results exactly when it is
one of the hardcoded recipes and the lowercased query occurs in its lowercased
title, its lowercased description, or one of its lowercased tags. -/
theorem mock_search_characterization (q : String) (r : SearchRecipe) :
    r ∈ searchResults q ↔
      r ∈ MOCK_RECIPES ∧
        (strIncludes r.title.toLower q.toLower = true ∨
         strIncludes r.description.toLower q.toLower = true ∨
         ∃ t ∈ r.tags, strIncludes t.toLower q.toLower = true) := by
  simp [searchResults, List.mem_filter, List.any_eq_true, Bool.or_eq_true,
    or_assoc]

/-! ## The list aggregator

No file of the repository implements the aggregation algorithm — the design
document describes it and the UI only consumes its output — so everything in
this section is modelled from the specification's section 4.1, step by step,
and the claims about aggregation are settled against this model. -/

/-- Modelled from the spec: a pantry record (`user_pantry` rows: ingredient
name, quantity, unit) — the pantry store itself is not in the repository's
files. -/
structure PantryItem where
  name : String
  quantity : ℚ
  unit : String
deriving DecidableEq, Repr

/-- Character-level lowercase (the ASCII lowercasing the normalization
needs). -/
def lowerString (s : String) : String := ⟨s.data.map Char.toLower⟩

/-- Character-level trim: drop whitespace from both ends. -/
def trimString (s : String) : String :=
  ⟨((s.data.dropWhile Char.isWhitespace).reverse.dropWhile
      Char.isWhitespace).reverse⟩

/-- Modelled from the spec: "singularize common plurals" — drop one trailing
s, keeping a double-s ending (e.g. "molasses") untouched. -/
def singularTail (d : List Char) : List Char :=
  match d.reverse with
  | 's' :: 's' :: _ => d
  | 's' :: rest => rest.reverse
  | _ => d

/-- Modelled from the spec: "normalize the name (lowercase, trim, singularize
common plurals)". -/
def normalizeName (s : String) : String :=
  ⟨singularTail (lowerString (trimString s)).data⟩

/-- Modelled from the spec: the measurement family of a unit — tsp/tbsp/cup
are one volume family, g/kg one mass family, and a unit that cannot be
reconciled (e.g. "piece") is its own family, kept separate rather than
merged. -/
def unitFamily (u : String) : String :=
  let v := lowerString (trimString u)
  if v = "tsp" ∨ v = "tbsp" ∨ v = "cup" ∨ v = "cups" then "volume"
  else if v = "g" ∨ v = "kg" then "mass"
  else v

/-- Modelled from the spec: "convert to a canonical unit per measurement
family" — teaspoons for the volume family (1 tbsp = 3 tsp, 1 cup = 48 tsp),
grams for the mass family; an unrecognized unit keeps its quantity. -/
def canonicalQty (u : String) (q : ℚ) : ℚ :=
  let v := lowerString (trimString u)
  if v = "tbsp" then q * 3
  else if v = "cup" ∨ v = "cups" then q * 48
  else if v = "kg" then q * 1000
  else q

/-- Modelled from the spec: one line of the aggregated shopping list — the
normalized name and unit family it is grouped by, the summed canonical
quantity, the set of contributing recipe ids, the aisle category, and the
checked flag (false on every item of a fresh list). -/
structure AggItem where
  name : String
  family : String
  qty : ℚ
  recipeIds : List Nat
  category : String
  checked : Bool
deriving DecidableEq, Repr

/-- The grouping key of spec step 3: (normalized name, unit family). -/
def AggItem.key (a : AggItem) : String × String := (a.name, a.family)

/-- Modelled from the spec: the line item one ingredient of one recipe
contributes before merging. -/
def toAggItem (rid : Nat) (ing : Ingredient) : AggItem :=
  { name := normalizeName ing.name, family := unitFamily ing.unit,
    qty := canonicalQty ing.unit ing.amount, recipeIds := [rid],
    category := "other", checked := false }

/-- Modelled from the spec, step 3: merge one contribution into the
accumulated list — sum quantities and retain contributing recipe ids on a key
match, otherwise append a new line item. -/
def mergeInto : List AggItem → AggItem → List AggItem
  | [], x => [x]
  | a :: rest, x =>
    if a.key = x.key then
      { a with qty := a.qty + x.qty,
               recipeIds := a.recipeIds ++ x.recipeIds } :: rest
    else a :: mergeInto rest x

/-- Modelled from the spec, step 2 (gather every recipe's ingredients, tagged
with the recipe id). -/
def gatherIngredients (rs : List Recipe) : List (Nat × Ingredient) :=
  rs.flatMap (fun r => r.ingredients.map (fun i => (r.id, i)))

/-- Modelled from the spec, step 3: group by (normalized name, unit family)
and sum quantities. -/
def groupIngredients (l : List (Nat × Ingredient)) : List AggItem :=
  l.foldl (fun acc p => mergeInto acc (toAggItem p.1 p.2)) []

/-- Modelled from the spec, step 4: the pantry's owned quantity for one
(normalized name, unit family) key, in the family's canonical unit. -/
def pantryOwned (pantry : List PantryItem) (k : String × String) : ℚ :=
  (pantry.filter (fun p =>
      decide (normalizeName p.name = k.1 ∧ unitFamily p.unit = k.2))).foldl
    (fun s p => s + canonicalQty p.unit p.quantity) 0

/-- Modelled from the spec, step 4: with `exclude_pantry` set, subtract the
owned quantity from each aggregated quantity and drop an item whose remainder
is ≤ 0; without the flag, leave the list alone. -/
def applyPantry (excl : Bool) (pantry : List PantryItem)
    (l : List AggItem) : List AggItem :=
  if excl then
    (l.map (fun a => { a with qty := a.qty - pantryOwned pantry a.key })).filter
      (fun a => decide (0 < a.qty))
  else l

/-- Modelled from the spec, step 5: the static ingredient-to-aisle lookup
table. -/
def aisleTable : List (String × String) :=
  [("flour", "baking"), ("sugar", "baking"), ("milk", "dairy"),
   ("butter", "dairy"), ("egg", "dairy"), ("chicken", "meat"),
   ("beef", "meat"), ("onion", "produce"), ("garlic", "produce"),
   ("tomato", "produce"), ("salt", "spices"), ("pepper", "spices")]

/-- Modelled from the spec, step 5: aisle lookup, falling back to "other"
for unknown ingredients. -/
def aisleFor (name : String) : String :=
  match aisleTable.find? (fun p => p.1 = name) with
  | some p => p.2
  | none => "other"

/-- Modelled from the spec, step 5: assign categories when
`group_by_category` is set. -/
def categorize (grp : Bool) (l : List AggItem) : List AggItem :=
  if grp then l.map (fun a => { a with category := aisleFor a.name }) else l

/-- Lexicographic comparison of character lists (alphabetical order of the
names and categories being sorted). -/
def charListLE : List Char → List Char → Bool
  | [], _ => true
  | _ :: _, [] => false
  | a :: as, b :: bs =>
    if a < b then true else if b < a then false else charListLE as bs

def stringLE (a b : String) : Bool := charListLE a.data b.data

/-- Modelled from the spec, step 6: "sort items by category then
alphabetically by name". -/
def itemLE (a b : AggItem) : Bool :=
  if a.category = b.category then stringLE a.name b.name
  else stringLE a.category b.category

def itemOrder (a b : AggItem) : Prop := itemLE a b = true

instance : DecidableRel itemOrder := fun a b => by
  unfold itemOrder
  infer_instance

def sortItems (l : List AggItem) : List AggItem := List.insertionSort itemOrder l

/-- Modelled from the spec's error conditions: empty recipe id set is a
validation error; an unresolvable recipe id a not-found error. -/
inductive AggError where
  | validation (msg : String)
  | notFound (id : Nat)
deriving DecidableEq, Repr

/-- Modelled from the spec, step 1: fetch every recipe, failing the whole
operation on the first missing id (no partial list). -/
def fetchRecipes (store : Nat → Option Recipe) :
    List Nat → Except AggError (List Recipe)
  | [] => .ok []
  | id :: rest =>
    match store id with
    | none => .error (.notFound id)
    | some r => (fetchRecipes store rest).map (r :: ·)

/-- Modelled from the spec: the generated list (items plus contributing
recipe ids). -/
structure AggShoppingList where
  items : List AggItem
  recipeIds : List Nat
deriving DecidableEq, Repr

/-- Modelled from the spec, section 4.1: the whole aggregation pipeline —
validate, fetch, normalize and group, subtract pantry, categorize, sort. -/
def aggregate (store : Nat → Option Recipe) (ids : List Nat)
    (pantry : List PantryItem) (excludePantry groupByCategory : Bool) :
    Except AggError AggShoppingList :=
  if ids.isEmpty then .error (.validation "empty recipe id set")
  else
    match fetchRecipes store ids with
    | .error e => .error e
    | .ok rs =>
      .ok { items :=
              sortItems (categorize groupByCategory
                (applyPantry excludePantry pantry
                  (groupIngredients (gatherIngredients rs)))),
            recipeIds := ids }

/-! ## Key uniqueness through the pipeline -/

theorem mergeInto_keys (acc : List AggItem) (x : AggItem) :
    (mergeInto acc x).map AggItem.key =
      if x.key ∈ acc.map AggItem.key then acc.map AggItem.key
      else acc.map AggItem.key ++ [x.key] := by
  induction acc with
  | nil => simp [mergeInto]
  | cons a rest ih =>
    have hcons : mergeInto (a :: rest) x =
        if a.key = x.key then
          { a with qty := a.qty + x.qty,
                   recipeIds := a.recipeIds ++ x.recipeIds } :: rest
        else a :: mergeInto rest x := rfl
    by_cases hk : a.key = x.key
    · have hmem : x.key ∈ (a :: rest).map AggItem.key := by
        simp [← hk]
      rw [hcons, if_pos hk, if_pos hmem]
      rfl
    · have hne : x.key ≠ a.key := fun h => hk h.symm
      rw [hcons, if_neg hk]
      simp only [List.map_cons, ih, List.mem_cons]
      by_cases hmem : x.key ∈ rest.map AggItem.key
      · rw [if_pos hmem, if_pos (Or.inr hmem)]
      · have hnot : ¬ (x.key = a.key ∨ x.key ∈ rest.map AggItem.key) := by
          rintro (h | h)
          · exact hne h
          · exact hmem h
        rw [if_neg hmem, if_neg hnot]
        simp

theorem mergeInto_keys_nodup (acc : List AggItem) (x : AggItem)
    (h : (acc.map AggItem.key).Nodup) :
    ((mergeInto acc x).map AggItem.key).Nodup := by
  rw [mergeInto_keys]
  by_cases hmem : x.key ∈ acc.map AggItem.key
  · simpa [hmem] using h
  · simp [hmem, List.nodup_append, h]

theorem foldl_mergeInto_keys_nodup (l : List (Nat × Ingredient)) :
    ∀ acc : List AggItem, (acc.map AggItem.key).Nodup →
      ((l.foldl (fun acc p => mergeInto acc (toAggItem p.1 p.2)) acc).map
          AggItem.key).Nodup := by
  induction l with
  | nil => intro acc h; simpa using h
  | cons p rest ih =>
    intro acc h
    exact ih (mergeInto acc (toAggItem p.1 p.2)) (mergeInto_keys_nodup acc _ h)

theorem groupIngredients_keys_nodup (l : List (Nat × Ingredient)) :
    ((groupIngredients l).map AggItem.key).Nodup :=
  foldl_mergeInto_keys_nodup l [] (by simp)

theorem applyPantry_keys_sublist (e : Bool) (pantry : List PantryItem)
    (l : List AggItem) :
    ((applyPantry e pantry l).map AggItem.key).Sublist (l.map AggItem.key) := by
  cases e with
  | false => simp [applyPantry]
  | true =>
    have h1 : ((l.map (fun a =>
        { a with qty := a.qty - pantryOwned pantry a.key })).map AggItem.key) =
        l.map AggItem.key := by
      rw [List.map_map]; rfl
    have h2 := List.Sublist.map AggItem.key
      (List.filter_sublist (p := fun a => decide (0 < a.qty))
        (l.map (fun a => { a with qty := a.qty - pantryOwned pantry a.key })))
    rw [h1] at h2
    simpa [applyPantry] using h2

theorem categorize_keys (g : Bool) (l : List AggItem) :
    (categorize g l).map AggItem.key = l.map AggItem.key := by
  cases g with
  | false => rfl
  | true =>
    show ((l.map fun a =>
        { a with category := aisleFor a.name }).map AggItem.key) =
      l.map AggItem.key
    rw [List.map_map]
    rfl

theorem sortItems_keys_perm (l : List AggItem) :
    ((sortItems l).map AggItem.key).Perm (l.map AggItem.key) :=
  (List.perm_insertionSort itemOrder l).map AggItem.key

theorem aggregate_ok_items (store : Nat → Option Recipe) (ids : List Nat)
    (pantry : List PantryItem) (e g : Bool) (out : AggShoppingList)
    (rs : List Recipe) (hf : fetchRecipes store ids = .ok rs)
    (h : aggregate store ids pantry e g = .ok out) :
    out.items = sortItems (categorize g (applyPantry e pantry
      (groupIngredients (gatherIngredients rs)))) ∧ out.recipeIds = ids := by
  unfold aggregate at h
  split at h
  · simp at h
  · rw [hf] at h
    cases h
    exact ⟨rfl, rfl⟩

/-- C4: in every shopping list the aggregator produces, the grouping keys
(normalized ingredient name, unit family) of the items are pairwise distinct:
two input ingredients sharing a key, from whatever recipes, end up in one
merged item and never as two entries. -/
theorem aggregation_keys_unique (store : Nat → Option Recipe) (ids : List Nat)
    (pantry : List PantryItem) (e g : Bool) (out : AggShoppingList)
    (h : aggregate store ids pantry e g = .ok out) :
    (out.items.map AggItem.key).Nodup := by
  cases hf : fetchRecipes store ids with
  | error err =>
    exfalso
    unfold aggregate at h
    split at h
    · simp at h
    · rw [hf] at h; simp at h
  | ok rs =>
    obtain ⟨hitems, -⟩ := aggregate_ok_items store ids pantry e g out rs hf h
    rw [hitems]
    refine ((sortItems_keys_perm _).nodup_iff).mpr ?_
    rw [categorize_keys]
    exact (applyPantry_keys_sublist e pantry _).nodup
      (groupIngredients_keys_nodup _)

/-! ## The item ordering is total and transitive -/

theorem charListLE_total (x : List Char) :
    ∀ y, charListLE x y = true ∨ charListLE y x = true := by
  induction x with
  | nil => intro y; left; rfl
  | cons a as ih =>
    intro y
    cases y with
    | nil => right; rfl
    | cons b bs =>
      rcases lt_trichotomy a b with h | h | h
      · left; simp [charListLE, h]
      · subst h
        rcases ih bs with h' | h'
        · left; simp [charListLE, h']
        · right; simp [charListLE, h']
      · right; simp [charListLE, h]

theorem charListLE_trans (x : List Char) :
    ∀ y z, charListLE x y = true → charListLE y z = true →
      charListLE x z = true := by
  induction x with
  | nil => intro y z _ _; rfl
  | cons a as ih =>
    intro y z hxy hyz
    cases y with
    | nil => simp [charListLE] at hxy
    | cons b bs =>
      cases z with
      | nil => simp [charListLE] at hyz
      | cons c cs =>
        by_cases hab : a < b
        · by_cases hbc : b < c
          · simp [charListLE, lt_trans hab hbc]
          · by_cases hcb : c < b
            · simp [charListLE, hbc, hcb] at hyz
            · have hbcs : b = c := le_antisymm (not_lt.mp hcb) (not_lt.mp hbc)
              subst hbcs
              simp [charListLE, hab]
        · by_cases hba : b < a
          · simp [charListLE, hab, hba] at hxy
          · have habs : a = b := le_antisymm (not_lt.mp hba) (not_lt.mp hab)
            subst habs
            simp only [charListLE, lt_irrefl, if_false] at hxy
            by_cases hac : a < c
            · simp [charListLE, hac]
            · by_cases hca : c < a
              · simp [charListLE, hac, hca] at hyz
              · have hacs : a = c := le_antisymm (not_lt.mp hca) (not_lt.mp hac)
                subst hacs
                simp only [charListLE, lt_irrefl, if_false] at hyz ⊢
                exact ih bs cs hxy hyz

theorem charListLE_antisymm (x : List Char) :
    ∀ y, charListLE x y = true → charListLE y x = true → x = y := by
  induction x with
  | nil =>
    intro y h1 h2
    cases y with
    | nil => rfl
    | cons b bs => simp [charListLE] at h2
  | cons a as ih =>
    intro y h1 h2
    cases y with
    | nil => simp [charListLE] at h1
    | cons b bs =>
      by_cases hab : a < b
      · simp [charListLE, hab, lt_asymm hab] at h2
      · by_cases hba : b < a
        · simp [charListLE, hab, hba] at h1
        · have habs : a = b := le_antisymm (not_lt.mp hba) (not_lt.mp hab)
          subst habs
          simp only [charListLE, lt_irrefl, if_false] at h1 h2
          rw [ih bs h1 h2]

theorem stringLE_total (a b : String) :
    stringLE a b = true ∨ stringLE b a = true :=
  charListLE_total a.data b.data

theorem stringLE_trans (a b c : String) (h1 : stringLE a b = true)
    (h2 : stringLE b c = true) : stringLE a c = true :=
  charListLE_trans a.data b.data c.data h1 h2

theorem stringLE_antisymm (a b : String) (h1 : stringLE a b = true)
    (h2 : stringLE b a = true) : a = b := by
  cases a with
  | mk da =>
    cases b with
    | mk db => exact congrArg String.mk (charListLE_antisymm da db h1 h2)

instance : IsTotal AggItem itemOrder := by
  constructor
  intro a b
  unfold itemOrder itemLE
  by_cases h : a.category = b.category
  · simp [h]
    exact stringLE_total a.name b.name
  · have h' : ¬ b.category = a.category := fun e => h e.symm
    simp [h, h']
    exact stringLE_total a.category b.category

instance : IsTrans AggItem itemOrder := by
  constructor
  intro a b c h1 h2
  unfold itemOrder itemLE at h1 h2 ⊢
  by_cases hab : a.category = b.category
  · by_cases hbc : b.category = c.category
    · rw [if_pos hab] at h1
      rw [if_pos hbc] at h2
      rw [if_pos (hab.trans hbc)]
      exact stringLE_trans _ _ _ h1 h2
    · rw [if_pos hab] at h1
      rw [if_neg hbc] at h2
      rw [if_neg (fun e => hbc (hab ▸ e)), hab]
      exact h2
  · by_cases hbc : b.category = c.category
    · rw [if_neg hab] at h1
      rw [if_neg (fun e => hab (e.trans hbc.symm)), ← hbc]
      exact h1
    · rw [if_neg hab] at h1
      rw [if_neg hbc] at h2
      have hac : ¬ a.category = c.category := by
        intro e
        exact hab (stringLE_antisymm _ _ h1 (e ▸ h2))
      rw [if_neg hac]
      exact stringLE_trans _ _ _ h1 h2

/-! ## Transport of membership, keys and quantities through the last stages -/

theorem mem_sortItems (b : AggItem) (l : List AggItem) :
    b ∈ sortItems l ↔ b ∈ l :=
  (List.perm_insertionSort itemOrder l).mem_iff

theorem categorize_true_eq (m : List AggItem) :
    categorize true m = m.map (fun a => { a with category := aisleFor a.name }) :=
  rfl

theorem mem_categorize_of (g : Bool) (m : List AggItem) (b : AggItem)
    (hb : b ∈ categorize g m) :
    ∃ c ∈ m, b.key = c.key ∧ b.qty = c.qty := by
  cases g with
  | false => exact ⟨b, hb, rfl, rfl⟩
  | true =>
    rw [categorize_true_eq] at hb
    obtain ⟨c, hc, rfl⟩ := List.mem_map.mp hb
    exact ⟨c, hc, rfl, rfl⟩

theorem exists_mem_categorize (g : Bool) (m : List AggItem) (c : AggItem)
    (hc : c ∈ m) :
    ∃ b ∈ categorize g m, b.key = c.key ∧ b.qty = c.qty := by
  cases g with
  | false => exact ⟨c, hc, rfl, rfl⟩
  | true =>
    refine ⟨{ c with category := aisleFor c.name }, ?_, rfl, rfl⟩
    rw [categorize_true_eq]
    exact List.mem_map.mpr ⟨c, hc, rfl⟩

theorem mem_applyPantry_true (pantry : List PantryItem) (l : List AggItem)
    (b : AggItem) :
    b ∈ applyPantry true pantry l ↔
      (∃ a ∈ l, ({ a with qty := a.qty - pantryOwned pantry a.key } : AggItem) = b) ∧
        0 < b.qty := by
  have hdef : applyPantry true pantry l =
      (l.map fun a => { a with qty := a.qty - pantryOwned pantry a.key }).filter
        (fun a => decide (0 < a.qty)) := rfl
  rw [hdef, List.mem_filter, List.mem_map]
  simp

/-- C6: with `exclude_pantry` set, every aggregated ingredient whose needed
quantity exceeds the pantry-owned quantity for its (normalized name, unit
family) key appears in the generated list with quantity exactly
needed-minus-owned; an ingredient with remainder ≤ 0 is absent from the list
entirely; and every quantity in the list is positive. -/
theorem exclude_pantry_subtraction (store : Nat → Option Recipe)
    (ids : List Nat) (pantry : List PantryItem) (grp : Bool)
    (rs : List Recipe) (out : AggShoppingList)
    (hf : fetchRecipes store ids = .ok rs)
    (h : aggregate store ids pantry true grp = .ok out) :
    (∀ a ∈ groupIngredients (gatherIngredients rs),
      (0 < a.qty - pantryOwned pantry a.key →
        ∃ b ∈ out.items, b.key = a.key ∧
          b.qty = a.qty - pantryOwned pantry a.key) ∧
      (a.qty - pantryOwned pantry a.key ≤ 0 →
        ∀ b ∈ out.items, b.key ≠ a.key)) ∧
    (∀ b ∈ out.items, 0 < b.qty) := by
  obtain ⟨hitems, -⟩ := aggregate_ok_items store ids pantry true grp out rs hf h
  constructor
  · intro a ha
    constructor
    · intro hpos
      have hmem : ({ a with qty := a.qty - pantryOwned pantry a.key } : AggItem) ∈
          applyPantry true pantry (groupIngredients (gatherIngredients rs)) := by
        rw [mem_applyPantry_true]
        exact ⟨⟨a, ha, rfl⟩, hpos⟩
      obtain ⟨b, hb, hkey, hqty⟩ := exists_mem_categorize grp _ _ hmem
      refine ⟨b, ?_, hkey, hqty⟩
      rw [hitems, mem_sortItems]
      exact hb
    · intro hneg b hb hkey
      rw [hitems, mem_sortItems] at hb
      obtain ⟨c, hc, hbk, hbq⟩ := mem_categorize_of grp _ _ hb
      rw [mem_applyPantry_true] at hc
      obtain ⟨⟨a2, ha2, hfa⟩, hcq⟩ := hc
      have hka : c.key = a2.key := by rw [← hfa]; rfl
      have heq : a2 = a :=
        List.inj_on_of_nodup_map (groupIngredients_keys_nodup _) ha2 ha
          (by rw [← hka, ← hbk]; exact hkey)
      subst heq
      rw [← hfa] at hcq
      exact absurd hcq (not_lt.mpr hneg)
  · intro b hb
    rw [hitems, mem_sortItems] at hb
    obtain ⟨c, hc, hbk, hbq⟩ := mem_categorize_of grp _ _ hb
    rw [mem_applyPantry_true] at hc
    exact hbq ▸ hc.2

/-- C7: the aggregator is a deterministic function of its inputs — two runs
on identical recipes, pantry and flags return the same result, and the item
list of a successful run is sorted by the category-then-name order, so
repeated generation yields item lists that are element-for-element identical
and in identical order. -/
theorem deterministic_aggregation (store : Nat → Option Recipe)
    (ids : List Nat) (pantry : List PantryItem) (e g : Bool)
    (r1 r2 : Except AggError AggShoppingList)
    (h1 : aggregate store ids pantry e g = r1)
    (h2 : aggregate store ids pantry e g = r2) :
    r1 = r2 ∧ ∀ out, r1 = .ok out → List.Sorted itemOrder out.items := by
  refine ⟨h1 ▸ h2, ?_⟩
  intro out hout
  subst h1
  cases hfetch : fetchRecipes store ids with
  | error err =>
    exfalso
    unfold aggregate at hout
    split at hout
    · simp at hout
    · rw [hfetch] at hout
      simp at hout
  | ok rs =>
    obtain ⟨hitems, -⟩ :=
      aggregate_ok_items store ids pantry e g out rs hfetch hout
    rw [hitems]
    exact List.sorted_insertionSort itemOrder _

/-! ## Concrete aggregation run for the witnesses -/

def demoRecipeA : Recipe :=
  { id := 1, title := "Pancakes",
    ingredients := [{ name := "Flour", amount := 2, unit := "cup" },
                    { name := "Milk", amount := 1, unit := "cup" }],
    servings := 4 }

def demoRecipeB : Recipe :=
  { id := 2, title := "Bread",
    ingredients := [{ name := "flour", amount := 1, unit := "cup" }],
    servings := 2 }

def demoStore : Nat → Option Recipe := fun n =>
  if n = 1 then some demoRecipeA
  else if n = 2 then some demoRecipeB
  else none

def demoPantry : List PantryItem :=
  [{ name := "flour", quantity := 1, unit := "cup" }]

def demoAggOut : AggShoppingList :=
  { items := [{ name := "flour", family := "volume", qty := 96,
                recipeIds := [1, 2], category := "baking", checked := false },
              { name := "milk", family := "volume", qty := 48,
                recipeIds := [1], category := "dairy", checked := false }],
    recipeIds := [1, 2] }

unseal Rat.add Rat.sub Rat.mul in
theorem aggregation_keys_unique_witness :
    aggregate demoStore [1, 2] demoPantry true true = Except.ok demoAggOut ∧
      (demoAggOut.items.map AggItem.key).Nodup :=
  ⟨rfl, aggregation_keys_unique demoStore [1, 2] demoPantry true true
    demoAggOut rfl⟩

unseal Rat.add Rat.sub Rat.mul in
theorem exclude_pantry_subtraction_witness :
    fetchRecipes demoStore [1, 2] = Except.ok [demoRecipeA, demoRecipeB] ∧
      aggregate demoStore [1, 2] demoPantry true true = Except.ok demoAggOut ∧
      ∀ b ∈ demoAggOut.items, 0 < b.qty :=
  ⟨rfl, rfl,
    (exclude_pantry_subtraction demoStore [1, 2] demoPantry true
      [demoRecipeA, demoRecipeB] demoAggOut rfl rfl).2⟩

unseal Rat.add Rat.sub Rat.mul in
theorem deterministic_aggregation_witness :
    aggregate demoStore [1, 2] demoPantry true true =
        aggregate demoStore [1, 2] demoPantry true true ∧
      List.Sorted itemOrder demoAggOut.items :=
  ⟨rfl,
    (deterministic_aggregation demoStore [1, 2] demoPantry true true
      (aggregate demoStore [1, 2] demoPantry true true)
      (aggregate demoStore [1, 2] demoPantry true true) rfl rfl).2
      demoAggOut rfl⟩
